import Mathlib

/-!
Verification development for `gen_auto_berichtsheft.js`, a batch script that
fetches lesson data from a school-management API for an inclusive date range,
groups teaching-content lines by subject per day, and renders a Word document.

Dates are modelled as integers counting civil days since 1970-01-01 (the same
quantity JavaScript `Date` measures in milliseconds, divided by 86400000; the
script builds local-midnight dates, so day-level arithmetic is exact).
Calendar conversions follow the standard civil-calendar algorithms.
-/

namespace Berichtsheft

/-- Day-of-week as JavaScript `Date.prototype.getDay` reports it:
0 = Sunday .. 6 = Saturday.  Day 0 (1970-01-01) was a Thursday. -/
def jsGetDay (z : Int) : Int :=
  Int.emod (z + 4) 7

/-- Civil-calendar day number of year `y0`, month `m` (1..12), day `d` (1..31),
counted from 1970-01-01 = 0. -/
def daysFromCivil (y0 : Int) (m d : Nat) : Int :=
  let y : Int := if m ≤ 2 then y0 - 1 else y0
  let era : Int := Int.fdiv y 400
  let yoe : Nat := (y - era * 400).toNat
  let doy : Nat := (153 * (if 2 < m then m - 3 else m + 9) + 2) / 5 + d - 1
  let doe : Nat := yoe * 365 + yoe / 4 - yoe / 100 + doy
  era * 146097 + (doe : Int) - 719468

/-- Inverse of `daysFromCivil`: year, month (1..12) and day (1..31) of a
day number. -/
def civilFromDays (z0 : Int) : Int × Nat × Nat :=
  let z : Int := z0 + 719468
  let era : Int := Int.fdiv z 146097
  let doe : Nat := (z - era * 146097).toNat
  let yoe : Nat := (doe - doe / 1460 + doe / 36524 - doe / 146096) / 365
  let y : Int := (yoe : Int) + era * 400
  let doy : Nat := doe - (365 * yoe + yoe / 4 - yoe / 100)
  let mp : Nat := (5 * doy + 2) / 153
  let d : Nat := doy - (153 * mp + 2) / 5 + 1
  let m : Nat := if mp < 10 then mp + 3 else mp - 9
  (if m ≤ 2 then y + 1 else y, m, d)

/-- The `getFullYear()` of a day number. -/
def yearOfDay (z : Int) : Int :=
  (civilFromDays z).1

/-- Days since the Monday that starts the week of `z` (0 = Monday .. 6 = Sunday),
the `(date.getDay() + 6) % 7` expression of the script. -/
def mondayWeekday (z : Int) : Int :=
  Int.emod (jsGetDay z + 6) 7

/-- JavaScript `Math.ceil(a / 7)` for an integer numerator `a`. -/
def ceilDiv7 (a : Int) : Int :=
  -(Int.fdiv (-a) 7)

/-- The script's `getCalendarWeek` (lines 407-414): shift the date to the
Thursday of its week, take January 4 of that Thursday's year (the variable
named `firstThursday`), and compute
`Math.ceil(((target - firstThursday) / 86400000 + firstThursday.getDay() + 1) / 7)`.
The millisecond difference of two local midnights is an exact number of days. -/
def getCalendarWeek (z : Int) : Int :=
  let dayNr := mondayWeekday z
  let target := z - dayNr + 3
  let firstThursday := daysFromCivil (yearOfDay target) 1 4
  ceilDiv7 (target - firstThursday + jsGetDay firstThursday + 1)

/-- Modelled from the spec: ISO-8601 week numbering ("ISO-like week,
Thursday-anchored").  The ISO week of a date is numbered from the Thursday
of week 1, which is the Thursday of the week containing January 4 of the
ISO year (the year of the date's own week-Thursday). -/
def thursdayOf (z : Int) : Int :=
  z - mondayWeekday z + 3

/-- Modelled from the spec: the ISO-8601 week number of a day. -/
def isoWeek (z : Int) : Int :=
  let t := thursdayOf z
  let jan4 := daysFromCivil (yearOfDay t) 1 4
  Int.fdiv (t - thursdayOf jan4) 7 + 1

/-! ## Calendar entries and the per-day aggregation (lines 244-292) -/

/-- The `subject` object of a returned calendar entry; only its `longName`
is read by the script.  A missing `longName` property is modelled as `""`
(both are falsy in `!entry.subject?.longName`). -/
structure Subject where
  longName : String
deriving DecidableEq

/-- One calendar entry returned by a slot lookup.  `startDateTime` and
`endDateTime` are consumed only through their local hour and minute
(`toLocaleTimeString("de-DE", { hour: "2-digit", minute: "2-digit" })`),
so they are modelled as hour/minute pairs.  `teachingContent` is `none`
for an absent property; the empty string is equally falsy in
`entry.teachingContent || ...`. -/
structure Entry where
  subject : Option Subject
  status : String
  startHour : Nat
  startMin : Nat
  endHour : Nat
  endMin : Nat
  teachingContent : Option String
deriving DecidableEq

/-- The fixed missing-content sentinel (lines 279-281). -/
def missingSentinel : String :=
  "Kein Lehrstoff durch die Lehrkraft angegeben! Bitte manuell eintragen!"

/-- The hardcoded subject-name substitution (lines 253-256). -/
def normalizeSubject (s : String) : String :=
  if s = "LF 8: Daten systemübergreifend bereitstellen / OOP (SI+IT nur Grundlagen) in Python/Java/ Datenbanke"
  then "LF 8: Daten systemübergreifend bereitstellen"
  else s

/-- The subject name an entry is grouped under: `none` when the entry is
skipped by `if (!entry.subject?.longName) continue` (line 250), otherwise
the (normalized) `longName`. -/
def subjectName (e : Entry) : Option String :=
  match e.subject with
  | none => none
  | some sub => if sub.longName = "" then none else some (normalizeSubject sub.longName)

/-- Two-digit zero-padded number, as `toLocaleTimeString("de-DE",
{ hour: "2-digit", minute: "2-digit" })` renders hours and minutes. -/
def pad2 (n : Nat) : String :=
  if n < 10 then "0" ++ toString n else toString n

/-- Rendering `HH:MM` of a local time. -/
def fmtTime (h m : Nat) : String :=
  pad2 h ++ ":" ++ pad2 m

/-- The single content line an entry contributes (lines 258-287):
a cancellation marker built from the entry's own start/end time when
`status === "CANCELLED"`, else the provided teaching content, else the
missing-content sentinel. -/
def entryLine (e : Entry) : String :=
  if e.status = "CANCELLED" then
    "Entfallen (" ++ fmtTime e.startHour e.startMin ++ " - " ++ fmtTime e.endHour e.endMin ++ ")"
  else
    match e.teachingContent with
    | none => missingSentinel
    | some c => if c = "" then missingSentinel else c

/-- The `daySubjects` object: subject name → the lines of its `Set`, in
insertion order (JavaScript objects iterate string keys in insertion order
and `Set` iterates in insertion order). -/
abbrev DayMap : Type := List (String × List String)

/-- JavaScript `Set.prototype.add`: append the element if it is not already
present. -/
def insNew {α : Type} [DecidableEq α] (l : List α) (a : α) : List α :=
  if a ∈ l then l else l ++ [a]

/-- Insertion of one line under a subject (lines 271-274 and 284-287):
update the subject's existing set in place, or append a fresh singleton set
for a first-seen subject. -/
def addLine (m : DayMap) (s line : String) : DayMap :=
  match m with
  | [] => [(s, [line])]
  | (k, v) :: rest =>
    if k = s then (k, insNew v line) :: rest
    else (k, v) :: addLine rest s line

/-- The lines recorded for subject `s` (empty when the subject is absent). -/
def lookupLines (s : String) : DayMap → List String
  | [] => []
  | (k, v) :: rest => if k = s then v else lookupLines s rest

/-- Processing of one calendar entry (the body of the
`for (const entry of calendarEntries)` loop, lines 245-288). -/
def processEntry (m : DayMap) (e : Entry) : DayMap :=
  match subjectName e with
  | none => m
  | some s => addLine m s (entryLine e)

/-- The subject/line pair an entry contributes, if any. -/
def entryContribution (e : Entry) : Option (String × String) :=
  match subjectName e with
  | none => none
  | some s => some (s, entryLine e)

/-- Aggregation of a list of calendar entries into a fresh `daySubjects`. -/
def aggregateEntries (es : List Entry) : DayMap :=
  es.foldl processEntry []

/-! ## The per-day slot loop (lines 185-292) -/

/-- State threaded through the `for (const lesson of lessons)` loop of one
day: the `daySubjects` map being built, the `console.error` log, and the
number of slot lookups attempted so far. -/
structure SlotFold where
  dayMap : DayMap
  errLog : List String
  attempts : Nat
deriving DecidableEq

/-- One iteration of the slot loop: a lookup is attempted exactly once; a
failure (non-ok response or thrown error) is caught, logged, and the day
continues (lines 289-291); a success folds its entries into `daySubjects`. -/
def slotStep (st : SlotFold) (r : Except String (List Entry)) : SlotFold :=
  match r with
  | Except.error msg =>
    { dayMap := st.dayMap
      errLog := st.errLog ++ ["Error fetching teaching content for lesson: " ++ msg]
      attempts := st.attempts + 1 }
  | Except.ok entries =>
    { dayMap := entries.foldl processEntry st.dayMap
      errLog := st.errLog
      attempts := st.attempts + 1 }

/-- The whole slot loop of one day, starting from an empty `daySubjects`. -/
def processSlotResults (slots : List (Except String (List Entry))) : SlotFold :=
  slots.foldl slotStep ⟨[], [], 0⟩

/-! ## Rendering (lines 144-162, 200-211, 294-334) -/

/-- Does `hay` start with `needle`? (character-list form of
`String.startsWith`). -/
def startsWithChars : List Char → List Char → Bool
  | [], _ => true
  | _ :: _, [] => false
  | a :: as, b :: bs => a == b && startsWithChars as bs

/-- Does `hay` contain `needle` as a contiguous substring? -/
def includesChars (needle : List Char) : List Char → Bool
  | [] => startsWithChars needle []
  | h :: t => startsWithChars needle (h :: t) || includesChars needle t

/-- JavaScript `s.includes(sub)`. -/
def jsIncludes (s sub : String) : Bool :=
  includesChars sub.data s.data

/-- The fields of a `docx` `Paragraph` that the script sets: its text, its
heading style (`"Title"`, `"Heading2"`, `"Heading3"` or none), the text-run
color, and whether it is a bullet-numbered paragraph. -/
structure Para where
  text : String
  heading : Option String := none
  color : Option String := none
  bullet : Bool := false
deriving DecidableEq

/-- The main title paragraph (lines 147-153). -/
def titlePara : Para :=
  { text := "Berichtsheft", heading := some "Title" }

/-- German weekday names indexed by `getDay()` (0 = Sunday). -/
def germanWeekdayName (w : Int) : String :=
  (["Sonntag", "Montag", "Dienstag", "Mittwoch", "Donnerstag", "Freitag", "Samstag"]).getD w.toNat ""

/-- German month names indexed 1..12. -/
def germanMonthName (m : Nat) : String :=
  (["Januar", "Februar", "März", "April", "Mai", "Juni", "Juli", "August",
    "September", "Oktober", "November", "Dezember"]).getD (m - 1) ""

/-- Text of a day heading (lines 202-207):
`currentDate.toLocaleDateString("de-DE", ...)` with long weekday, long
month, numeric day and year, followed by `":"`, e.g.
`"Montag, 5. Januar 2026:"`. -/
def dayHeadingText (z : Int) : String :=
  let c := civilFromDays z
  germanWeekdayName (jsGetDay z) ++ ", " ++ toString c.2.2 ++ ". " ++
    germanMonthName c.2.1 ++ " " ++ toString c.1 ++ ":"

/-- The underlined weekday/date heading of a day (lines 200-211). -/
def dayHeadingPara (z : Int) : Para :=
  { text := dayHeadingText z, heading := some "Heading2" }

/-- The colored sub-heading of a subject (lines 296-306). -/
def subjectHeadingPara (s : String) : Para :=
  { text := s, heading := some "Heading3", color := some "156082" }

/-- A bulleted content line (lines 309-325): red when the text contains
`"Kein Lehrstoff"`, black otherwise. -/
def bulletPara (c : String) : Para :=
  { text := c
    color := some (if jsIncludes c "Kein Lehrstoff" then "FF0000" else "000000")
    bullet := true }

/-- The empty separator paragraph appended after each day (lines 329-334). -/
def emptyPara : Para :=
  { text := "" }

/-- The subject blocks of one day (lines 294-327): for each subject of
`daySubjects` in iteration order, its sub-heading followed by its bulleted
lines in set order. -/
def renderSubjects (m : DayMap) : List Para :=
  m.flatMap (fun p => subjectHeadingPara p.1 :: p.2.map bulletPara)

/-- All paragraphs one day pushes: heading, subject blocks, separator. -/
def dayParagraphs (z : Int) (slots : List (Except String (List Entry))) : List Para :=
  dayHeadingPara z :: (renderSubjects (processSlotResults slots).dayMap ++ [emptyPara])

/-! ## The whole run of `fetchTeachingContent` and `main` -/

/-- The `KW.../...` calendar-week paragraph (lines 155-162). -/
def kwPara (startDay : Int) : Para :=
  { text := "KW" ++ toString (getCalendarWeek startDay) ++ "/" ++ toString (yearOfDay startDay) }

/-- The inclusive day range walked by `while (currentDate <= endDate)`. -/
def daysFrom (s e : Int) : List Int :=
  (List.range (e - s + 1).toNat).map (fun i => s + i)

/-- The fixed hourly slots 7:00-18:00 queried for every day (line 185). -/
def slotHours : List Nat :=
  (List.range 12).map (fun i => i + 7)

/-- The full `paragraphs` array accumulated by `fetchTeachingContent` for a
run whose authentication succeeds: title, week label, then each day's
paragraphs.  `results d h` is the outcome of the slot lookup for day `d`
and hour `h`. -/
def fetchParagraphs (sd ed : Int) (results : Int → Nat → Except String (List Entry)) : List Para :=
  titlePara :: kwPara sd :: (daysFrom sd ed).flatMap (fun d => dayParagraphs d (slotHours.map (results d)))

/-- The end of `fetchTeachingContent` (lines 344-400): if the accumulated
paragraph list is empty, throw `"No valid teaching content to add to the
document."` and write nothing; otherwise build the document and write the
output file. -/
def fetchOutcome (sd ed : Int) (results : Int → Nat → Except String (List Entry)) :
    Except String (List Para) :=
  let ps := fetchParagraphs sd ed results
  if ps.length = 0 then Except.error "No valid teaching content to add to the document."
  else Except.ok ps

/-- The validation performed by `promptUserForTimeframe` (lines 82-94) on
the two parsed input dates (`none` models an invalid/NaN parse): an invalid
date rejects first, then a start date strictly after the end date rejects;
otherwise the pair is resolved. -/
def validateTimeframe (s e : Option Int) : Except String (Int × Int) :=
  match s, e with
  | some sd, some ed =>
    if ed < sd then Except.error "Start date must be earlier than or equal to the end date."
    else Except.ok (sd, ed)
  | _, _ => Except.error "Invalid date format. Please use an valid date as YYYY-MM-DD."

/-- The observable actions of a run: the authentication request (lines
43-49), the token request (lines 118-126), one calendar lookup per day and
slot (lines 227-236), the final file write (line 399), and terminal error
reports. -/
inductive Event
  | loginCall
  | tokenCall
  | slotLookup (day : Int) (hour : Nat)
  | fileWrite
  | errorPrint (msg : String)
deriving DecidableEq

/-- Is the event a network request? -/
def isNetworkEvent : Event → Bool
  | Event.loginCall => true
  | Event.tokenCall => true
  | Event.slotLookup _ _ => true
  | Event.fileWrite => false
  | Event.errorPrint _ => false

/-- The network/file events of `fetchTeachingContent` in order, for a run
whose authentication and token requests succeed: login, token, one lookup
per slot of every day of the range, then the file write (the paragraph
list is never empty, see `fetchOutcome`). -/
def fetchTrace (sd ed : Int) : List Event :=
  Event.loginCall :: Event.tokenCall ::
    ((daysFrom sd ed).flatMap (fun d => slotHours.map (fun h => Event.slotLookup d h)) ++
      [Event.fileWrite])

/-- The events of `main` (lines 445-457): a rejected
`promptUserForTimeframe` is caught and only reported; otherwise
`fetchTeachingContent` runs with the validated dates. -/
def mainTrace (s e : Option Int) : List Event :=
  match validateTimeframe s e with
  | Except.error msg => [Event.errorPrint msg]
  | Except.ok p => fetchTrace p.1 p.2

/-! ## Derived notions used by the claim statements -/

/-- Subject-less demo entry for the C10 witness. -/
def orphanEntry : Entry :=
  ⟨none, "CANCELLED", 8, 0, 9, 0, some "ignored content"⟩

/-- Cancelled demo entry for the C5 witness. -/
def cancelledEntry : Entry :=
  ⟨some ⟨"Mathe"⟩, "CANCELLED", 8, 0, 8, 45, some "ignored content"⟩

/-- Demo entry with absent teaching content for the C6 witness. -/
def blankEntry : Entry :=
  ⟨some ⟨"Mathe"⟩, "REGULAR", 8, 0, 9, 0, none⟩

/-- Invariant of the aggregation: every subject's line list is duplicate
free (it models a JavaScript `Set`). -/
def mapInv (m : DayMap) : Prop := ∀ p ∈ m, (Prod.snd p).Nodup

/-- Demo entries with identical content for the C4 witness. -/
def firstMatheEntry : Entry := ⟨some ⟨"Mathe"⟩, "REGULAR", 8, 0, 9, 0, some "Bruchrechnung"⟩

/-- Second demo entry, a different lesson hour with the same content. -/
def secondMatheEntry : Entry := ⟨some ⟨"Mathe"⟩, "REGULAR", 9, 0, 10, 0, some "Bruchrechnung"⟩

/-- Sequential set insertion of a batch of elements. -/
def insAllNew {α : Type} [DecidableEq α] (l : List α) (xs : List α) : List α :=
  xs.foldl insNew l

/-- First-occurrence deduplication of a list, keeping encounter order. -/
def dedupFirst {α : Type} [DecidableEq α] (xs : List α) : List α :=
  insAllNew [] xs

/-- Insertion of a batch of subject/line pairs into a day map. -/
def insAll (m : DayMap) (ps : List (String × String)) : DayMap :=
  ps.foldl (fun acc p => addLine acc p.1 p.2) m

/-- The lines contributed for subject `s`, in contribution order. -/
def selectFor (s : String) (ps : List (String × String)) : List String :=
  ps.filterMap (fun p => if p.1 = s then some p.2 else none)

/-! ## Claim theorems -/

/-- Claim C1: the claim says that a run with no teaching content at all
reports the error `"No valid teaching content to add to the document."` and
writes no file.  The code contradicts this: the title and calendar-week
paragraphs are pushed unconditionally, so the paragraph list is never empty
and the error branch is unreachable.  Evaluated at a one-day range
(2026-01-05) in which every slot lookup returns zero entries, the run still
writes a document consisting of exactly the title, the week label, the day
heading and the empty separator. -/
theorem no_content_still_writes_file :
    fetchOutcome (daysFromCivil 2026 1 5) (daysFromCivil 2026 1 5) (fun _ _ => Except.ok []) =
      Except.ok [titlePara, kwPara (daysFromCivil 2026 1 5),
        dayHeadingPara (daysFromCivil 2026 1 5), emptyPara] := rfl

/-- Claim C2: whenever the parsed start date is strictly after the parsed
end date, `promptUserForTimeframe` rejects with the input-validation error
and `main` only reports it: the run's event trace is the single error
print, so no authentication call, token request or slot lookup happens. -/
theorem start_after_end_rejects_without_network (sd ed : Int) (h : ed < sd) :
    mainTrace (some sd) (some ed) =
      [Event.errorPrint "Start date must be earlier than or equal to the end date."] ∧
    ∀ ev ∈ mainTrace (some sd) (some ed), isNetworkEvent ev = false := by
  have hm : mainTrace (some sd) (some ed) =
      [Event.errorPrint "Start date must be earlier than or equal to the end date."] := by
    simp [mainTrace, validateTimeframe, if_pos h]
  refine ⟨hm, ?_⟩
  intro ev hev
  rw [hm] at hev
  simp only [List.mem_singleton] at hev
  subst hev
  rfl

/-- Witness for C2 at the concrete pair start = day 1, end = day 0. -/
theorem start_after_end_rejects_without_network_witness :
    (0 : Int) < 1 ∧
    (mainTrace (some 1) (some 0) =
        [Event.errorPrint "Start date must be earlier than or equal to the end date."] ∧
      ∀ ev ∈ mainTrace (some 1) (some 0), isNetworkEvent ev = false) :=
  ⟨by decide, start_after_end_rejects_without_network 1 0 (by decide)⟩

/-- Claim C3: the claim says `getCalendarWeek` agrees with ISO-8601 week
numbering for every calendar date.  The code contradicts this: on
2026-01-01 — a January 1 that falls in ISO week 1, exactly the boundary
case the claim highlights — the script computes week 0 (the `Math.ceil`
formula mis-handles a January 4 that is a Sunday, whose `getDay()` is 0),
while the ISO-8601 week number is 1. -/
theorem calendar_week_deviates_from_iso :
    getCalendarWeek (daysFromCivil 2026 1 1) = 0 ∧ isoWeek (daysFromCivil 2026 1 1) = 1 :=
  ⟨by decide, by decide⟩

/-- Claim C10: an entry whose subject long name is absent (no subject
object, or an empty `longName`) is skipped entirely: it changes nothing in
the day's aggregation, whatever its status or teaching content. -/
theorem entry_without_subject_skipped (m : DayMap) (e : Entry)
    (h : ∀ sub, e.subject = some sub → sub.longName = "") :
    processEntry m e = m := by
  unfold processEntry
  cases hsub : e.subject with
  | none => simp [subjectName, hsub]
  | some sub => simp [subjectName, hsub, h sub hsub]

/-- Witness for C10: a cancelled, content-carrying entry with no subject
object leaves a concrete day map untouched. -/
theorem entry_without_subject_skipped_witness :
    (∀ sub, orphanEntry.subject = some sub → sub.longName = "") ∧
    processEntry [("Mathe", ["A"])] orphanEntry = [("Mathe", ["A"])] :=
  ⟨fun _ h => Option.noConfusion h,
   entry_without_subject_skipped [("Mathe", ["A"])] orphanEntry (fun _ h => Option.noConfusion h)⟩

/-- Claim C5: a returned entry with status `CANCELLED` and a subject long
name contributes exactly the line `Entfallen (HH:MM - HH:MM)` built from
its own start and end time, and that single line — no teaching content and
no sentinel — is what gets added to the subject's set. -/
theorem cancelled_entry_adds_only_entfallen (m : DayMap) (e : Entry) (s : String)
    (hs : subjectName e = some s) (hc : e.status = "CANCELLED") :
    entryLine e =
      "Entfallen (" ++ fmtTime e.startHour e.startMin ++ " - " ++
        fmtTime e.endHour e.endMin ++ ")" ∧
    processEntry m e = addLine m s (entryLine e) := by
  constructor
  · simp [entryLine, hc]
  · simp [processEntry, hs]

/-- Witness for C5: a concrete cancelled 08:00-08:45 entry renders as
`Entfallen (08:00 - 08:45)` even though it carries teaching content. -/
theorem cancelled_entry_adds_only_entfallen_witness :
    subjectName cancelledEntry = some "Mathe" ∧ cancelledEntry.status = "CANCELLED" ∧
    (entryLine cancelledEntry =
        "Entfallen (" ++ fmtTime cancelledEntry.startHour cancelledEntry.startMin ++ " - " ++
          fmtTime cancelledEntry.endHour cancelledEntry.endMin ++ ")" ∧
      processEntry [] cancelledEntry = addLine [] "Mathe" (entryLine cancelledEntry)) :=
  ⟨by decide, rfl, cancelled_entry_adds_only_entfallen [] cancelledEntry "Mathe" (by decide) rfl⟩

/-- Claim C6: a non-cancelled entry whose teaching content is falsy (absent
or the empty string) contributes the fixed sentinel line, the sentinel
contains the substring `"Kein Lehrstoff"`, and every rendered bullet line
is colored `FF0000` exactly when its text contains `"Kein Lehrstoff"` and
`000000` otherwise. -/
theorem missing_content_sentinel_and_coloring (m m' : DayMap) (e : Entry) (s : String)
    (hs : subjectName e = some s) (hnc : e.status ≠ "CANCELLED")
    (hf : e.teachingContent = none ∨ e.teachingContent = some "") :
    entryLine e = missingSentinel ∧
    processEntry m e = addLine m s missingSentinel ∧
    jsIncludes missingSentinel "Kein Lehrstoff" = true ∧
    ∀ p ∈ renderSubjects m', p.bullet = true →
      p.color = some (if jsIncludes p.text "Kein Lehrstoff" then "FF0000" else "000000") := by
  have h1 : entryLine e = missingSentinel := by
    unfold entryLine
    rw [if_neg hnc]
    rcases hf with h | h <;> simp [h]
  refine ⟨h1, by simp [processEntry, hs, h1], by decide, ?_⟩
  intro p hp hb
  unfold renderSubjects at hp
  rw [List.mem_flatMap] at hp
  obtain ⟨⟨k, v⟩, _, hp⟩ := hp
  rcases List.mem_cons.1 hp with hp | hp
  · subst hp
    exact absurd hb (by simp [subjectHeadingPara])
  · obtain ⟨c, _, hc⟩ := List.mem_map.1 hp
    subst hc
    rfl

/-- Witness for C6: a concrete content-less entry yields the sentinel, and
the bullets of a concrete two-line day map are colored red for the sentinel
line and black for the ordinary line. -/
theorem missing_content_sentinel_and_coloring_witness :
    subjectName blankEntry = some "Mathe" ∧ blankEntry.status ≠ "CANCELLED" ∧
    (blankEntry.teachingContent = none ∨ blankEntry.teachingContent = some "") ∧
    (entryLine blankEntry = missingSentinel ∧
      processEntry [] blankEntry = addLine [] "Mathe" missingSentinel ∧
      jsIncludes missingSentinel "Kein Lehrstoff" = true ∧
      ∀ p ∈ renderSubjects [("Mathe", [missingSentinel, "Bruchrechnung"])], p.bullet = true →
        p.color = some (if jsIncludes p.text "Kein Lehrstoff" then "FF0000" else "000000")) :=
  ⟨by decide, by decide, Or.inl rfl,
   missing_content_sentinel_and_coloring [] [("Mathe", [missingSentinel, "Bruchrechnung"])]
     blankEntry "Mathe" (by decide) (by decide) (Or.inl rfl)⟩

/-- Folding slots that all return zero entries never touches the day map. -/
theorem dayMap_foldl_all_ok_nil (slots : List (Except String (List Entry))) (st : SlotFold)
    (h : ∀ r ∈ slots, r = Except.ok []) :
    (slots.foldl slotStep st).dayMap = st.dayMap := by
  induction slots generalizing st with
  | nil => rfl
  | cons r rs ih =>
    have hr := h r (List.mem_cons_self r rs)
    subst hr
    rw [List.foldl_cons]
    exact ih _ (fun x hx => h x (List.mem_cons_of_mem _ hx))

/-- Claim C7: a day on which every slot lookup returns zero entries pushes
exactly its weekday/date heading followed by the empty separator — no
subject sub-heading and no bullet line. -/
theorem empty_day_renders_heading_only (z : Int) (slots : List (Except String (List Entry)))
    (h : ∀ r ∈ slots, r = Except.ok []) :
    dayParagraphs z slots = [dayHeadingPara z, emptyPara] := by
  unfold dayParagraphs processSlotResults
  rw [dayMap_foldl_all_ok_nil slots _ h]
  rfl

/-- Witness for C7: the twelve hourly slots of 2026-01-05 all return zero
entries, and the day renders as heading plus separator only. -/
theorem empty_day_renders_heading_only_witness :
    (∀ r ∈ List.replicate 12 (Except.ok [] : Except String (List Entry)), r = Except.ok []) ∧
    dayParagraphs (daysFromCivil 2026 1 5) (List.replicate 12 (Except.ok [])) =
      [dayHeadingPara (daysFromCivil 2026 1 5), emptyPara] :=
  ⟨fun _ hr => List.eq_of_mem_replicate hr,
   empty_day_renders_heading_only _ _ (fun _ hr => List.eq_of_mem_replicate hr)⟩

/-- Each slot-loop iteration attempts exactly one lookup. -/
theorem attempts_foldl (slots : List (Except String (List Entry))) (st : SlotFold) :
    (slots.foldl slotStep st).attempts = st.attempts + slots.length := by
  induction slots generalizing st with
  | nil => rfl
  | cons r rs ih =>
    rw [List.foldl_cons, ih]
    cases r <;> simp [slotStep] <;> omega

/-- The slot loop only ever appends to the error log. -/
theorem errLog_foldl_mono (slots : List (Except String (List Entry))) (st : SlotFold)
    (msg : String) (h : msg ∈ st.errLog) :
    msg ∈ (slots.foldl slotStep st).errLog := by
  induction slots generalizing st with
  | nil => exact h
  | cons r rs ih =>
    rw [List.foldl_cons]
    refine ih _ ?_
    cases r with
    | error m => exact List.mem_append_left _ h
    | ok es => exact h

/-- The day map built by the slot loop depends only on the incoming day
map, not on the log or the attempt counter. -/
theorem dayMap_foldl_congr (slots : List (Except String (List Entry))) (st st' : SlotFold)
    (h : st.dayMap = st'.dayMap) :
    (slots.foldl slotStep st).dayMap = (slots.foldl slotStep st').dayMap := by
  induction slots generalizing st st' with
  | nil => exact h
  | cons r rs ih =>
    rw [List.foldl_cons, List.foldl_cons]
    refine ih _ _ ?_
    cases r <;> simp [slotStep, h]

/-- Claim C9: when one slot lookup fails, the failure is logged, only that
slot's entries are missing — the day map equals the one built from the
remaining slots, which are all still processed — and every slot is
attempted exactly once (no retry). -/
theorem failed_slot_logged_skipped_no_retry (pre post : List (Except String (List Entry)))
    (msg : String) :
    (processSlotResults (pre ++ Except.error msg :: post)).dayMap =
      (processSlotResults (pre ++ post)).dayMap ∧
    ("Error fetching teaching content for lesson: " ++ msg) ∈
      (processSlotResults (pre ++ Except.error msg :: post)).errLog ∧
    (processSlotResults (pre ++ Except.error msg :: post)).attempts =
      pre.length + 1 + post.length := by
  unfold processSlotResults
  rw [List.foldl_append, List.foldl_append, List.foldl_cons]
  refine ⟨dayMap_foldl_congr _ _ _ rfl, errLog_foldl_mono _ _ _ ?_, ?_⟩
  · simp [slotStep]
  · rw [attempts_foldl]
    simp only [slotStep, attempts_foldl]
    omega

/-- Adding an element to a set always leaves it a member. -/
theorem mem_insNew_self {α : Type} [DecidableEq α] (l : List α) (a : α) : a ∈ insNew l a := by
  unfold insNew
  split
  · assumption
  · exact List.mem_append_right _ (List.mem_singleton.2 rfl)

/-- Adding an element already in a set is a no-op. -/
theorem insNew_of_mem {α : Type} [DecidableEq α] {l : List α} {a : α} (h : a ∈ l) :
    insNew l a = l :=
  if_pos h

/-- Looking a subject up after an insertion: the inserted subject's set
gains the line (set-style), every other subject is untouched. -/
theorem lookup_addLine (m : DayMap) (s s' t : String) :
    lookupLines s' (addLine m s t) =
      if s' = s then insNew (lookupLines s m) t else lookupLines s' m := by
  induction m with
  | nil =>
    by_cases h : s' = s
    · subst h; simp [addLine, lookupLines, insNew]
    · have h2 : s ≠ s' := Ne.symm h
      simp [addLine, lookupLines, h, h2]
  | cons p rest ih =>
    obtain ⟨k, v⟩ := p
    by_cases hk : k = s
    · subst hk
      by_cases h : s' = k
      · subst h; simp [addLine, lookupLines]
      · have h2 : k ≠ s' := Ne.symm h
        simp [addLine, lookupLines, h, h2]
    · by_cases h : s' = k
      · subst h
        have h2 : s' ≠ s := fun hh => hk (hh ▸ rfl)
        simp [addLine, lookupLines, hk, h2]
      · have h2 : k ≠ s' := Ne.symm h
        simp [addLine, lookupLines, hk, h2, ih]

/-- Inserting the same line twice under the same subject is the same as
inserting it once. -/
theorem addLine_idem (m : DayMap) (s t : String) :
    addLine (addLine m s t) s t = addLine m s t := by
  induction m with
  | nil =>
    have ht : t ∈ [t] := List.mem_singleton.2 rfl
    simp [addLine, insNew_of_mem ht]
  | cons p rest ih =>
    obtain ⟨k, v⟩ := p
    by_cases hk : k = s
    · simp [addLine, hk, insNew_of_mem (mem_insNew_self v t)]
    · simp [addLine, hk, ih]

/-- Under the invariant, every lookup yields a duplicate-free list. -/
theorem lookup_nodup (m : DayMap) (s : String) (h : mapInv m) :
    (lookupLines s m).Nodup := by
  induction m with
  | nil => simp [lookupLines]
  | cons p rest ih =>
    obtain ⟨k, v⟩ := p
    unfold lookupLines
    split
    · exact h (k, v) (List.mem_cons_self _ _)
    · exact ih (fun q hq => h q (List.mem_cons_of_mem _ hq))

/-- Set insertion into a duplicate-free list leaves exactly one copy. -/
theorem count_insNew_self (v : List String) (t : String) (h : v.Nodup) :
    (insNew v t).count t = 1 := by
  unfold insNew
  split
  · exact List.count_eq_one_of_mem h (by assumption)
  · rw [List.count_append, List.count_eq_zero.2 (by assumption)]
    simp

/-- An entry with contribution `(s, t)` is processed as `addLine m s t`. -/
theorem processEntry_of_contribution (m : DayMap) (e : Entry) (s t : String)
    (h : entryContribution e = some (s, t)) :
    processEntry m e = addLine m s t := by
  unfold entryContribution at h
  unfold processEntry
  cases hs : subjectName e with
  | none => rw [hs] at h; exact absurd h (by simp)
  | some s' =>
    rw [hs] at h
    obtain ⟨h1, h2⟩ := Prod.mk.injEq .. ▸ Option.some.injEq .. ▸ h
    rw [h1, h2]

/-- Bullet paragraphs with different texts are different paragraphs. -/
theorem bulletPara_injective : Function.Injective bulletPara :=
  fun _ _ h => congrArg Para.text h

/-- Claim C4: two entries for the same day whose contributions are the same
subject and the identical content string collapse: processing the second
changes nothing, the subject's set holds exactly one copy of the string,
and its rendered block holds exactly one bullet paragraph with that text.
The dedup key is the exact string (`Set` membership). -/
theorem identical_content_collapses_to_one_bullet (m : DayMap) (e1 e2 : Entry) (s t : String)
    (h1 : entryContribution e1 = some (s, t)) (h2 : entryContribution e2 = some (s, t))
    (hinv : mapInv m) :
    processEntry (processEntry m e1) e2 = processEntry m e1 ∧
    (lookupLines s (processEntry (processEntry m e1) e2)).count t = 1 ∧
    ((lookupLines s (processEntry (processEntry m e1) e2)).map bulletPara).count (bulletPara t)
      = 1 := by
  rw [processEntry_of_contribution m e1 s t h1, processEntry_of_contribution _ e2 s t h2]
  rw [addLine_idem]
  have hcount : (lookupLines s (addLine m s t)).count t = 1 := by
    rw [lookup_addLine, if_pos rfl]
    exact count_insNew_self _ _ (lookup_nodup m s hinv)
  refine ⟨rfl, hcount, ?_⟩
  rw [List.count_map_of_injective _ bulletPara bulletPara_injective]
  exact hcount

/-- Witness for C4 on a concrete day map already holding an older line. -/
theorem identical_content_collapses_to_one_bullet_witness :
    entryContribution firstMatheEntry = some ("Mathe", "Bruchrechnung") ∧
    entryContribution secondMatheEntry = some ("Mathe", "Bruchrechnung") ∧
    mapInv [("Mathe", ["Altstoff"])] ∧
    (processEntry (processEntry [("Mathe", ["Altstoff"])] firstMatheEntry) secondMatheEntry =
        processEntry [("Mathe", ["Altstoff"])] firstMatheEntry ∧
      (lookupLines "Mathe"
          (processEntry (processEntry [("Mathe", ["Altstoff"])] firstMatheEntry)
            secondMatheEntry)).count "Bruchrechnung" = 1 ∧
      ((lookupLines "Mathe"
          (processEntry (processEntry [("Mathe", ["Altstoff"])] firstMatheEntry)
            secondMatheEntry)).map bulletPara).count (bulletPara "Bruchrechnung") = 1) :=
  ⟨by decide, by decide, fun p hp => by
      rw [List.mem_singleton] at hp
      subst hp
      decide,
   identical_content_collapses_to_one_bullet [("Mathe", ["Altstoff"])] firstMatheEntry
     secondMatheEntry "Mathe" "Bruchrechnung" (by decide) (by decide)
     (fun p hp => by
       rw [List.mem_singleton] at hp
       subst hp
       decide)⟩

/-- Keys after an insertion: an existing subject keeps the key list, a new
subject is appended at the end (first-seen order). -/
theorem keys_addLine (m : DayMap) (s t : String) :
    (addLine m s t).map Prod.fst = insNew (m.map Prod.fst) s := by
  induction m with
  | nil => simp [addLine, insNew]
  | cons p rest ih =>
    obtain ⟨k, v⟩ := p
    by_cases hk : k = s
    · subst hk
      simp [addLine, insNew, List.mem_cons]
    · simp only [addLine, if_neg hk, List.map_cons, ih, insNew]
      have h2 : ¬s = k := fun hh => hk hh.symm
      by_cases hmem : s ∈ rest.map Prod.fst
      · simp [hmem, List.mem_cons, h2]
      · simp [hmem, List.mem_cons, h2]

/-- Looking up a subject in a batched insertion: its set is the incoming
set extended, in order, by the subject's contributed lines. -/
theorem lookup_insAll (ps : List (String × String)) (m : DayMap) (s : String) :
    lookupLines s (insAll m ps) = insAllNew (lookupLines s m) (selectFor s ps) := by
  induction ps generalizing m with
  | nil => rfl
  | cons p ps ih =>
    obtain ⟨k, t⟩ := p
    show lookupLines s (insAll (addLine m k t) ps) = _
    rw [ih]
    by_cases hk : k = s
    · subst hk
      simp only [selectFor, List.filterMap_cons, if_pos rfl]
      rw [lookup_addLine, if_pos rfl]
      rfl
    · have h2 : ¬s = k := fun hh => hk hh.symm
      simp only [selectFor, List.filterMap_cons, if_neg hk]
      rw [lookup_addLine, if_neg h2]

/-- Keys of a batched insertion: the incoming keys extended by the
first-occurrence order of the new subjects. -/
theorem keys_insAll (ps : List (String × String)) (m : DayMap) :
    (insAll m ps).map Prod.fst = insAllNew (m.map Prod.fst) (ps.map Prod.fst) := by
  induction ps generalizing m with
  | nil => rfl
  | cons p ps ih =>
    show (insAll (addLine m p.1 p.2) ps).map Prod.fst = _
    rw [ih, keys_addLine]
    rfl

/-- Folding the per-entry processing over a list of entries is the batched
insertion of the entries' contributions. -/
theorem foldl_processEntry_eq_insAll (es : List Entry) (m : DayMap) :
    es.foldl processEntry m = insAll m (es.filterMap entryContribution) := by
  induction es generalizing m with
  | nil => rfl
  | cons e es ih =>
    rw [List.foldl_cons, ih]
    cases h : entryContribution e with
    | none =>
      have hm : processEntry m e = m := by
        unfold entryContribution at h
        unfold processEntry
        cases hs : subjectName e with
        | none => rfl
        | some s' => rw [hs] at h; exact absurd h (by simp)
      rw [List.filterMap_cons_none h, hm]
    | some q =>
      rw [List.filterMap_cons_some h]
      rw [processEntry_of_contribution m e q.1 q.2 (by rw [h])]
      rfl

/-- The texts of the `Heading3` paragraphs emitted for a day map are its
subject names, in map order. -/
theorem rendered_subject_heading_texts (m : DayMap) :
    (renderSubjects m).filterMap
        (fun p => if p.heading = some "Heading3" then some p.text else none)
      = m.map Prod.fst := by
  induction m with
  | nil => rfl
  | cons p rest ih =>
    obtain ⟨s, cs⟩ := p
    have hb : (cs.map bulletPara).filterMap
        (fun p => if p.heading = some "Heading3" then some p.text else none) = [] := by
      induction cs with
      | nil => rfl
      | cons c cs ihc => simp [bulletPara, ihc]
    simp only [renderSubjects, List.flatMap_cons, List.filterMap_append, List.filterMap_cons,
      subjectHeadingPara] at *
    simp [hb, ih]

/-- Claim C8: subjects are emitted in first-seen order and content lines in
set-insertion order, with no sorting: the `Heading3` texts emitted for the
aggregation of an entry list are exactly the first-occurrence
deduplication of the contributed subject names in contribution order, and
each subject's line set is exactly the first-occurrence deduplication of
its contributed lines in contribution order. -/
theorem subjects_and_lines_keep_insertion_order (es : List Entry) :
    (renderSubjects (aggregateEntries es)).filterMap
        (fun p => if p.heading = some "Heading3" then some p.text else none)
      = dedupFirst ((es.filterMap entryContribution).map Prod.fst) ∧
    ∀ s, lookupLines s (aggregateEntries es)
      = dedupFirst (selectFor s (es.filterMap entryContribution)) := by
  constructor
  · rw [rendered_subject_heading_texts, aggregateEntries, foldl_processEntry_eq_insAll,
      keys_insAll]
    rfl
  · intro s
    rw [aggregateEntries, foldl_processEntry_eq_insAll, lookup_insAll]
    rfl

end Berichtsheft
